import Mathlib

/-
Verification of the ContextForgeTS compression/merge engine.

The definitions below are a shallow embedding of the compression-related
TypeScript sources:
  - src/lib/compression/strategies/semantic.ts  (client-side strategy)
  - src/lib/compression/compressionService.ts   (client-side orchestrator)
  - convex/compression actions                  (server-side claude-code path)
  - convex/lib/tokenizer.ts                     (approximate estimator)
Strings are Lean strings (lists of characters); JavaScript's UTF-16 code
units coincide with characters for the ASCII inputs used in the tests.
Numbers that the code only ever uses as integers are Nat; the two rational
comparisons of the code (compression ratio and quality score) are modelled
over the rationals, with the one divergence from IEEE floats (division by
zero) modelled explicitly where it occurs.
-/

set_option maxRecDepth 16384

/-! ## JavaScript string helpers -/

/-- Characters treated as whitespace by JavaScript `trim` (ASCII portion). -/
def isJsWs (c : Char) : Bool :=
  c == ' ' || c == '\t' || c == '\n' || c == '\r' || c == '\x0b' || c == '\x0c'

/-- JavaScript `String.prototype.trim`: drop whitespace from both ends. -/
def jsTrim (s : String) : String :=
  ⟨((s.data.dropWhile isJsWs).reverse.dropWhile isJsWs).reverse⟩

/-- JavaScript `String.prototype.toLowerCase` (ASCII portion). -/
def jsLower (s : String) : String :=
  ⟨s.data.map Char.toLower⟩

/-- Test that `n` is an initial segment of `h`. -/
def leadsList : List Char → List Char → Bool
  | [], _ => true
  | _ :: _, [] => false
  | a :: as, b :: bs => a == b && leadsList as bs

/-- Test that `n` occurs contiguously inside `h`; this models JavaScript `String.prototype.includes` on character lists. -/
def inclList (n : List Char) : List Char → Bool
  | [] => n.isEmpty
  | b :: bs => leadsList n (b :: bs) || inclList n bs

/-- JavaScript `hay.includes(needle)`. -/
def strIncludes (needle hay : String) : Bool :=
  inclList needle.data hay.data

/-- JavaScript `x || d` for an optional numeric field: `undefined` and `0`
are falsy and fall through to the default. -/
def jsOr (x : Option Nat) (d : Nat) : Nat :=
  match x with
  | none => d
  | some n => if n = 0 then d else n

/-! ## Token estimator

Both `src/lib/compression/strategies/semantic.ts` and
`convex/lib/tokenizer.ts` define the same approximate estimator
`Math.ceil(content.length / 4)`. -/

/-- Function `estimateTokens` from the sources: `Math.ceil(content.length / 4)`. -/
def estimateTokens (content : String) : Nat :=
  (content.length + 3) / 4

/-! ## Word-boundary tokenization

The extractors use JavaScript regexes whose matches are delimited by `\b`
word boundaries (`\w = [A-Za-z0-9_]`).  `sepRuns` splits a character list
into pairs `(sep, run)` where `run` is a maximal nonempty run of
word-characters and `sep` is the stretch of non-word characters before it
(empty only for the first run when the text starts with a word character);
trailing non-word characters are dropped. -/

/-- A JavaScript `\w` word character: `[A-Za-z0-9_]`. -/
def jsWordChar (c : Char) : Bool :=
  c.isAlphanum || c == '_'

/-- Split into (separator, maximal word-character run) pairs. -/
def sepRuns (wordChar : Char → Bool) : List Char → List (List Char × List Char)
  | [] => []
  | c :: rest =>
    let t := sepRuns wordChar rest
    if wordChar c then
      match t with
      | [] => [([], [c])]
      | (sep, run) :: t' =>
        if sep.isEmpty then ([], c :: run) :: t'
        else ([], [c]) :: (sep, run) :: t'
    else
      match t with
      | [] => []
      | (sep, run) :: t' => (c :: sep, run) :: t'

/-! Sanity examples for the tokenizer. -/

example : sepRuns jsWordChar "a.b".data = [([], ['a']), (['.'], ['b'])] := by decide

example : sepRuns jsWordChar ".ab ".data = [(['.'], ['a', 'b'])] := by decide

/-! ## Client-side importance extractor

`extractImportantWords` in `src/lib/compression/strategies/semantic.ts`
collects, in order: every match of `/\b\d+(?:\.\d+)?\b/g`, the first 10
matches of `/\b[A-Z][a-z]+\b/g`, and the first 5 matches of
`/\b[A-Z]{2,}\b/g`.  On the `sepRuns` decomposition, the matches of these
anchored patterns are exactly:
  - numbers: maximal word runs made of digits, where a run followed by a
    separator that is exactly `"."` and another all-digit run absorbs it
    as a decimal part (and scanning resumes after it);
  - capitalized words: runs of the exact shape `[A-Z][a-z]+`;
  - acronyms: runs made of `[A-Z]` only, of length at least 2. -/

namespace Client

/-- A nonempty all-digit word run (a `\d+` match filling the whole run). -/
def digitsRun (r : List Char) : Bool :=
  !r.isEmpty && r.all Char.isDigit

/-- Global scan of `/\b\d+(?:\.\d+)?\b/g` over the `sepRuns` pairs. -/
def matchNumbersGo : List (List Char × List Char) → List (List Char)
  | [] => []
  | [(_, run)] => if digitsRun run then [run] else []
  | (_, run) :: p2 :: rest2 =>
    if digitsRun run then
      if p2.1 == ['.'] && digitsRun p2.2 then
        (run ++ '.' :: p2.2) :: matchNumbersGo rest2
      else run :: matchNumbersGo (p2 :: rest2)
    else matchNumbersGo (p2 :: rest2)

/-- Matches of `/\b\d+(?:\.\d+)?\b/g` (the `numbers` line of the source). -/
def jsMatchNumbers (s : String) : List String :=
  (matchNumbersGo (sepRuns jsWordChar s.data)).map (fun l => ⟨l⟩)

/-- A word run of the exact shape `[A-Z][a-z]+`. -/
def isCapWordRun : List Char → Bool
  | [] => false
  | c :: cs => c.isUpper && !cs.isEmpty && cs.all Char.isLower

/-- Matches of `/\b[A-Z][a-z]+\b/g` (the `properNouns` line). -/
def jsMatchCapWords (s : String) : List String :=
  (((sepRuns jsWordChar s.data).map Prod.snd).filter isCapWordRun).map (fun l => ⟨l⟩)

/-- Matches of `/\b[A-Z]{2,}\b/g` (the `technical` line). -/
def jsMatchAcronyms (s : String) : List String :=
  (((sepRuns jsWordChar s.data).map Prod.snd).filter
    (fun r => r.all Char.isUpper && decide (2 ≤ r.length))).map (fun l => ⟨l⟩)

/-- Function `extractImportantWords` from `strategies/semantic.ts`: all numbers,
then the first 10 capitalized words, then the first 5 acronyms. -/
def extractImportantWords (text : String) : List String :=
  jsMatchNumbers text ++ (jsMatchCapWords text).take 10 ++ (jsMatchAcronyms text).take 5

/-- Number of important words of the original (`importantWords.length`). -/
def importantCount (original : String) : Nat :=
  (extractImportantWords original).length

/-- Number of important words preserved in the compressed text
(`importantWords.filter((word) => compressedLower.includes(word.toLowerCase())).length`). -/
def preservedCount (original compressed : String) : Nat :=
  ((extractImportantWords original).filter
    (fun w => strIncludes (jsLower w) (jsLower compressed))).length

/-- Function `estimateQuality` from `strategies/semantic.ts`: `0.8` when there are
no important words, else `min(1.0, preserved / importantWords.length)`. -/
def estimateQuality (original compressed : String) : ℚ :=
  if importantCount original = 0 then 4/5
  else min 1 ((preservedCount original compressed : ℚ) / (importantCount original : ℚ))

/-- Control-flow form of the quality gate `quality < 0.6` computed over
integers (`preserved / total < 3/5  ↔  5 * preserved < 3 * total` for a
positive total; the `min` with `1` never fires below `0.6`).  Equivalence
with `estimateQuality _ _ < 3/5` is proved in `qualityLtMin_iff` below. -/
def qualityLtMin (original compressed : String) : Bool :=
  if importantCount original = 0 then false
  else decide (5 * preservedCount original compressed < 3 * importantCount original)

end Client

/-! ## Server-side importance extractor

`extractImportantWords` in the convex compression action lowercases the
content, takes the matches of `/\b[a-z0-9]+\b/g` (on the `sepRuns`
decomposition: maximal word runs that contain no `_` and no non-ASCII
word character), deduplicates them preserving first occurrences (the JS
`Set` iteration order), drops stop words and words of length at most 3,
and keeps the first 50. -/

/-- The fixed stop-word list of the convex action. -/
def stopWords : List String :=
  ["the", "is", "at", "which", "on", "a", "an", "and", "or", "but", "in",
   "with", "to", "for", "of", "as", "by", "from", "that", "this", "these",
   "those", "it", "are", "was", "were", "be", "been", "being", "have",
   "has", "had", "do", "does", "did", "will", "would", "should", "could",
   "may", "might", "can"]

/-- Worker for `dedupFirst`: keep elements not seen before. -/
def dedupFirstGo (seen : List String) : List String → List String
  | [] => []
  | x :: xs =>
    if seen.contains x then dedupFirstGo seen xs
    else x :: dedupFirstGo (x :: seen) xs

/-- Deduplicate keeping the first occurrence of each element, as
`[...new Set(words)]` does in JavaScript. -/
def dedupFirst (l : List String) : List String :=
  dedupFirstGo [] l

namespace Server

/-- Matches of `/\b[a-z0-9]+\b/g` on the lowercased content. -/
def jsMatchWords (content : String) : List String :=
  (((sepRuns jsWordChar (jsLower content).data).map Prod.snd).filter
    (fun r => !r.isEmpty && r.all (fun c => c.isLower || c.isDigit))).map (fun l => ⟨l⟩)

/-- Function `extractImportantWords` from the convex compression action:
`[...new Set(words)].filter((w) => !stopWords.has(w) && w.length > 3).slice(0, 50)`. -/
def extractImportantWords (content : String) : List String :=
  ((dedupFirst (jsMatchWords content)).filter
    (fun w => !stopWords.contains w && decide (3 < w.length))).take 50

/-- Number of important words of the original. -/
def importantCount (original : String) : Nat :=
  (extractImportantWords original).length

/-- Number of important words appearing in the lowercased compressed text. -/
def preservedCount (original compressed : String) : Nat :=
  ((extractImportantWords original).filter
    (fun w => strIncludes (jsLower w) (jsLower compressed))).length

/-- Function `estimateQuality` from the convex compression action (same formula as
the client one, over this file's extractor). -/
def estimateQuality (original compressed : String) : ℚ :=
  if importantCount original = 0 then 4/5
  else min 1 ((preservedCount original compressed : ℚ) / (importantCount original : ℚ))

end Server

/-! ## Ratio gate -/

/-- The effectiveness gate `originalTokens / compressedTokens < 1.2` of
both the client service and the convex action, computed over integers:
for `comp > 0` the comparison agrees with the exact rational one
(`5 * orig < 6 * comp`); for `comp = 0` the JavaScript quotient is
`Infinity` (or `NaN` when `orig = 0`) and the comparison is false, as is
`5 * orig < 0`.  Equivalence with the rational statement is proved in
`ratioLtMin_iff_ratio` below. -/
def ratioLtMin (orig comp : Nat) : Bool :=
  decide (5 * orig < 6 * comp)

/-! Sanity examples for the extractors. -/

example : Client.jsMatchNumbers "1.2.3 and 1.2x plus 12a" = ["1.2", "3", "1"] := by decide

example : Client.jsMatchCapWords "Alice met BOB and HelloWorld in Paris" = ["Alice", "Paris"] := by decide

example : Client.jsMatchAcronyms "the HTTP and API via X" = ["HTTP", "API"] := by decide

example : Client.extractImportantWords "5 5" = ["5", "5"] := by decide

example : Server.jsMatchWords "The HTTP_api is Fast 9000" = ["the", "is", "fast", "9000"] := by decide

example : Server.extractImportantWords "the fast Fast fox is fast 9000" = ["fast", "9000"] := by decide

/-! ## Prompt builders -/

/-- JavaScript `String(vars[key] || "")` for a numeric template variable:
`0` is falsy and renders as the empty string. -/
def jsNumStr (n : Nat) : String :=
  if n = 0 then "" else toString n

/-- Function `formatPrompt` from `strategies/semantic.ts`: the constant
`SEMANTIC_PROMPT_TEMPLATE` with its four placeholders `{contentType}`,
`{originalTokens}` (twice), `{targetRatio}` and `{content}` substituted by
`String(vars[key] || "")`.  The regex replacement is specialized here to
the template's placeholder occurrences, in order.  Note that the template
renders the target as the text `{originalTokens}/{targetRatio}`, a
division expression, not its computed value. -/
def formatPrompt (content : String) (originalTokens : Nat) (targetRatio : Nat)
    (contentType : String) : String :=
  "You are a compression specialist. Compress the following " ++ contentType ++
  " content from " ++ jsNumStr originalTokens ++ " tokens to approximately " ++
  jsNumStr originalTokens ++ "/" ++ jsNumStr targetRatio ++
  " tokens while preserving all critical information.\n\nCRITICAL RULES:\n- Keep ALL specific names, numbers, dates, and decisions\n- Maintain chronological order\n- Preserve technical terms and key concepts\n- Remove redundant explanations and examples\n- Keep conclusions and results\n- Output ONLY the compressed content (no meta-commentary)\n- If the same phrase is repeated, keep only the first occurrence\n\nCONTENT TO COMPRESS:\n" ++
  content ++ "\n\nCOMPRESSED VERSION:"

/-- Function `buildCompressionPrompt` from the convex compression action: renders
the fixed server template with `targetRatio = 2.0` and the computed
`targetTokens = Math.ceil(originalTokens / targetRatio)`.  The unused
`strategy` option is not modelled. -/
def buildCompressionPrompt (content : String) (originalTokens : Nat)
    (contentType : String) : String :=
  "You are a compression specialist. Your task is to compress the following " ++
  contentType ++
  " content while preserving all essential information.\n\nORIGINAL CONTENT (" ++
  toString originalTokens ++ " tokens):\n---\n" ++ content ++
  "\n---\n\nCOMPRESSION REQUIREMENTS:\n- Target length: ~" ++
  toString ((originalTokens + 1) / 2) ++
  " tokens (2x compression ratio)\n- Preserve all key information, facts, and important details\n- Remove redundancy, filler words, and verbose explanations\n- Maintain technical accuracy and specificity\n- Keep the compressed version coherent and readable\n- DO NOT add commentary or meta-text (no \"Here\u0027s the compressed version...\" etc.)\n\nCOMPRESSED VERSION:"

/-! ## Client-side compression service

`CompressionService` in `src/lib/compression/compressionService.ts`.  The
LLM transports (`ollama.streamChat` / `openrouter.streamChat`) are
modelled as a parameter mapping the rendered prompt to either the
accumulated response text or a thrown error message; the embedding also
counts how many times the transport is invoked.  Fields of the source
result that only echo timing or configuration (`provider`, `model`,
`durationMs`) and the float `compressionRatio` echoed to the UI are not
modelled; the ratio *gate* itself is `ratioLtMin`. -/

/-- The three strategies of `types.ts`. -/
inductive CompressionStrategy
  | semantic
  | structural
  | statistical
deriving DecidableEq, Repr

/-- The three providers of `types.ts`. -/
inductive Provider
  | ollama
  | openrouter
  | claudeCode
deriving DecidableEq, Repr

/-- Typed forms of the error strings produced by `compressBlock`:
  - `validationTooSmall n` — "Block has only {n} tokens (minimum: 100)";
  - `validationEmpty` — "Block has no content";
  - `backendFailure msg` — a message rethrown from the strategy/transport;
  - `ratioTooLow o c` — "Compression ratio {o/c}x is below minimum 1.2x";
  - `qualityTooLow q` — "Compression quality {q*100}% is too low". -/
inductive CompErr
  | validationTooSmall (tokens : Nat)
  | validationEmpty
  | backendFailure (msg : String)
  | ratioTooLow (orig comp : Nat)
  | qualityTooLow (q : ℚ)
deriving DecidableEq

/-- Whether an error is one of the two validation rejections. -/
def CompErr.isValidation : CompErr → Bool
  | .validationTooSmall _ => true
  | .validationEmpty => true
  | _ => false

/-- Predicate `isValidation` lifted to the optional error of a result. -/
def isValidationErrO : Option CompErr → Bool
  | some e => e.isValidation
  | none => false

/-- The `Block` interface consumed by the client service (the subset of
the convex document it reads). -/
structure ClientBlock where
  id : Nat
  content : String
  btype : String
  tokens : Option Nat
  isCompressed : Bool
deriving DecidableEq, Repr

/-- Structure `CompressionResult` of `types.ts` (modulo the unmodelled echo fields,
see the section comment). -/
structure CompressionResult where
  success : Bool
  blockId : Option Nat
  error : Option CompErr
  originalTokens : Nat
  compressedTokens : Nat
  tokensSaved : Nat
  compressedContent : Option String
  strategy : CompressionStrategy
deriving DecidableEq

/-- Function `validateBlock` of `compressionService.ts`: minimum token count first
(using the cached count when present and nonzero, else the estimator),
then the empty/whitespace-only content check. -/
def validateBlock (blk : ClientBlock) : Bool × Option CompErr :=
  let tokens := jsOr blk.tokens (estimateTokens blk.content)
  if tokens < 100 then (false, some (.validationTooSmall tokens))
  else if jsTrim blk.content = "" then (false, some .validationEmpty)
  else (true, none)

/-- Function `compressSemantic` of `strategies/semantic.ts`: build the prompt with
`targetRatio = options.targetRatio || 2.0` (the service always passes
`2.0`), then route to the provider.  Ollama and OpenRouter stream the
response, accumulate it and `trim` it; the claude-code provider throws.
The second component counts transport invocations. -/
def compressSemanticT (content : String) (prov : Provider) (targetRatio : Nat)
    (contentType : String) (backend : String → Except String String) :
    Except String String × Nat :=
  let prompt := formatPrompt content (estimateTokens content) targetRatio contentType
  match prov with
  | .ollama => ((backend prompt).map jsTrim, 1)
  | .openrouter => ((backend prompt).map jsTrim, 1)
  | .claudeCode => (.error "Claude Code compression must be called via Convex action", 0)

/-- Function `compressContent` of `compressionService.ts`: only the semantic
strategy is implemented; the other two throw. -/
def compressContentT (content : String) (strat : CompressionStrategy)
    (contentType : String) (prov : Provider)
    (backend : String → Except String String) : Except String String × Nat :=
  match strat with
  | .semantic => compressSemanticT content prov 2 contentType backend
  | .structural => (.error "Structural compression not yet implemented", 0)
  | .statistical => (.error "Statistical compression not yet implemented", 0)

/-- Function `compressBlock` of `compressionService.ts`: validate, compress via the
strategy, count tokens, apply the ratio gate and the quality gate, and
return the populated result.  The second component counts transport
invocations. -/
def compressBlockT (blk : ClientBlock) (strat : CompressionStrategy)
    (prov : Provider) (backend : String → Except String String) :
    CompressionResult × Nat :=
  let validation := validateBlock blk
  if !validation.1 then
    ({ success := false, blockId := none, error := validation.2,
       originalTokens := jsOr blk.tokens 0, compressedTokens := 0,
       tokensSaved := 0, compressedContent := none, strategy := strat }, 0)
  else
    match compressContentT blk.content strat blk.btype prov backend with
    | (.error e, n) =>
      ({ success := false, blockId := none, error := some (.backendFailure e),
         originalTokens := jsOr blk.tokens 0, compressedTokens := 0,
         tokensSaved := 0, compressedContent := none, strategy := strat }, n)
    | (.ok compressedContent, n) =>
      let originalTokens := jsOr blk.tokens (estimateTokens blk.content)
      let compressedTokens := estimateTokens compressedContent
      if ratioLtMin originalTokens compressedTokens then
        ({ success := false, blockId := none,
           error := some (.ratioTooLow originalTokens compressedTokens),
           originalTokens := originalTokens, compressedTokens := compressedTokens,
           tokensSaved := 0, compressedContent := none, strategy := strat }, n)
      else if Client.qualityLtMin blk.content compressedContent then
        ({ success := false, blockId := none,
           error := some (.qualityTooLow (Client.estimateQuality blk.content compressedContent)),
           originalTokens := originalTokens, compressedTokens := compressedTokens,
           tokensSaved := 0, compressedContent := none, strategy := strat }, n)
      else
        ({ success := true, blockId := some blk.id, error := none,
           originalTokens := originalTokens, compressedTokens := compressedTokens,
           tokensSaved := originalTokens - compressedTokens,
           compressedContent := some compressedContent, strategy := strat }, n)

/-! ## Store model and server-side actions

The convex store is modelled as a list of block documents; `ctx.runQuery
(api.blocks.get)` is lookup by id, and the mutations act on the list.
The claude-code transport (`claudeQuery` of the agent SDK raced against a
5-minute timer) is modelled by an `AgentRun` recording the messages the
SDK would deliver and the wall-clock time at which the iteration would
finish; `raceOutcome` resolves the `Promise.race` deterministically: the
backend wins exactly when it settles strictly before the timer fires.
Observability calls (console, LangFuse) have no effect on the store or
the result and are not modelled; neither is the float `compressionRatio`
echoed in results (the ratio gate itself is `ratioLtMin`). -/

/-- The convex block document (the fields this engine reads or writes). -/
structure BlockDoc where
  id : Nat
  content : String
  btype : String
  tokens : Option Nat
  isCompressed : Bool
  originalTokens : Option Nat
  mergedFromCount : Option Nat
deriving DecidableEq, Repr

/-- The document store, keyed by `BlockDoc.id`. -/
abbrev Store := List BlockDoc

deriving instance DecidableEq for Except

/-- Query `ctx.runQuery(api.blocks.get, { id })`. -/
def getBlock (store : Store) (i : Nat) : Option BlockDoc :=
  store.find? (fun b => b.id == i)

/-- Function `listByFilter` of the store collaborator (§6 of the spec). -/
def listByFilter (store : Store) (p : BlockDoc → Bool) : Store :=
  store.filter p

/-- Messages delivered by the agent SDK iteration: assistant messages
carry a list of text content blocks; result/other messages carry usage
data that does not affect the compressed text. -/
inductive SdkMsg
  | assistant (texts : List String)
  | result
  | other
deriving DecidableEq, Repr

/-- Accumulation of `compressedContent` over the message iteration. -/
def collectText : List SdkMsg → String
  | [] => ""
  | .assistant ts :: rest => String.join ts ++ collectText rest
  | .result :: rest => collectText rest
  | .other :: rest => collectText rest

/-- The hard wall-clock deadline of the claude-code adapter (5 minutes). -/
def timeoutMs : Nat := 300000

/-- One run of the claude-code backend: either the SDK iteration finishes
(delivering its messages) at a given wall-clock time, or it fails with an
error at a given time. -/
inductive AgentRun
  | yields (msgs : List SdkMsg) (elapsedMs : Nat)
  | crashes (msg : String) (elapsedMs : Nat)
deriving DecidableEq, Repr

/-- Wall-clock time at which the backend settles. -/
def AgentRun.elapsed : AgentRun → Nat
  | .yields _ t => t
  | .crashes _ t => t

/-- Outcome of `Promise.race([iteration, timeoutPromise])`. -/
inductive RaceResult
  | completed (msgs : List SdkMsg)
  | failed (msg : String)
  | timedOut
deriving DecidableEq, Repr

/-- Resolve the race: the backend wins exactly when it settles strictly
before `timeoutMs`; otherwise the timer rejects with the timeout error. -/
def raceOutcome (run : AgentRun) : RaceResult :=
  match run with
  | .yields msgs t => if t < timeoutMs then .completed msgs else .timedOut
  | .crashes m t => if t < timeoutMs then .failed m else .timedOut

/-- Typed forms of the errors thrown by the convex compression actions
(each is rethrown wrapped as "Claude Code compression failed: ..."):
  - `blockNotFound` — "Block not found" / "One or more blocks not found";
  - `tooSmall n` — "... only {n} tokens (minimum: 100)";
  - `noContent` — "Block has no content";
  - `timeout` — "Compression timed out after 5 minutes";
  - `backendFailed msg` — an error thrown by the SDK iteration;
  - `emptyResponse` — "Claude Code returned empty response";
  - `ratioTooLow o c` — "Compression ratio ...x is below minimum 1.2x". -/
inductive ServerErr
  | blockNotFound
  | tooSmall (tokens : Nat)
  | noContent
  | timeout
  | backendFailed (msg : String)
  | emptyResponse
  | ratioTooLow (orig comp : Nat)
deriving DecidableEq, Repr

/-- Result of the single-block action (the fields returned to the caller,
minus the unmodelled float `compressionRatio`). -/
structure SingleOut where
  blockId : Nat
  originalTokens : Nat
  compressedTokens : Nat
  tokensSaved : Nat
deriving DecidableEq, Repr

/-- Modelled from the spec: the `blocks.compress` mutation called by the
single-block paths is not under `src/` (only its callers, the schema docs
and the sequence diagrams are).  Per §3 and §8 of the spec it patches the
block in place with the compacted content, the new token count and the
compression metadata, and `originalTokenCount`, once set, is never
decreased — re-compression preserves the value set by the first
successful compression. -/
def compressMutation (store : Store) (blockId : Nat) (compressedContent : String)
    (originalTokens compressedTokens : Nat) : Store :=
  store.map (fun b =>
    if b.id = blockId then
      { b with content := compressedContent, tokens := some compressedTokens,
               isCompressed := true,
               originalTokens := some (b.originalTokens.getD originalTokens) }
    else b)

/-- Action `compressWithClaudeCode` of the convex compression action file: fetch and
validate the block, build the prompt, race the SDK iteration against the
5-minute timer, trim and validate the response, apply the ratio gate
(the quality score below 0.6 only logs a warning here — the attempt
proceeds), persist through `blocks.compress`, and return the metrics. -/
def compressWithClaudeCodeAction (store : Store) (blockId : Nat)
    (run : AgentRun) : Except ServerErr SingleOut × Store :=
  match getBlock store blockId with
  | none => (.error .blockNotFound, store)
  | some blk =>
    let originalTokens := jsOr blk.tokens (estimateTokens blk.content)
    if originalTokens < 100 then (.error (.tooSmall originalTokens), store)
    else if jsTrim blk.content = "" then (.error .noContent, store)
    else
      match raceOutcome run with
      | .timedOut => (.error .timeout, store)
      | .failed e => (.error (.backendFailed e), store)
      | .completed msgs =>
        let compressedContent := jsTrim (collectText msgs)
        if compressedContent = "" then (.error .emptyResponse, store)
        else
          let compressedTokens := estimateTokens compressedContent
          if ratioLtMin originalTokens compressedTokens then
            (.error (.ratioTooLow originalTokens compressedTokens), store)
          else
            (.ok { blockId := blockId, originalTokens := originalTokens,
                   compressedTokens := compressedTokens,
                   tokensSaved := originalTokens - compressedTokens },
             compressMutation store blockId compressedContent originalTokens
               compressedTokens)

/-- Result of the merge action (minus the unmodelled float ratio). -/
structure MergeOut where
  compressedContent : String
  originalTokens : Nat
  compressedTokens : Nat
  tokensSaved : Nat
deriving DecidableEq, Repr

/-- Queries `ctx.runQuery(api.blocks.get)` mapped over the requested ids. -/
def fetchBlocks (store : Store) (ids : List Nat) : List (Option BlockDoc) :=
  ids.map (getBlock store)

/-- The `validBlocks` filter of the merge action. -/
def validFetched (store : Store) (ids : List Nat) : List BlockDoc :=
  (fetchBlocks store ids).filterMap id

/-- The combined content of the merge action: per-block headers
`## Block {i+1} ({type})` joined by `\n\n---\n\n`. -/
def combineBlocks (bs : List BlockDoc) : String :=
  String.intercalate "\n\n---\n\n"
    (bs.enum.map (fun p =>
      "## Block " ++ toString (p.1 + 1) ++ " (" ++ p.2.btype ++ ")\n\n" ++ p.2.content))

/-- The aggregate original token count of the merge action:
`reduce((sum, b) => sum + (b.tokens || estimateTokens(b.content)), 0)`. -/
def mergeOrigTokens (bs : List BlockDoc) : Nat :=
  bs.foldl (fun s b => s + jsOr b.tokens (estimateTokens b.content)) 0

/-- Action `compressAndMergeWithClaudeCode` of the convex compression action file:
fetch all blocks, combine their contents, validate the aggregate size,
race the SDK iteration against the 5-minute timer, trim and validate the
response, and apply the ratio gate (quality below 0.6 only logs a
warning).  This action performs no mutation at all — it returns the
compacted content and metrics to the caller, which persists them. -/
def compressAndMergeAction (store : Store) (ids : List Nat)
    (run : AgentRun) : Except ServerErr MergeOut × Store :=
  if (fetchBlocks store ids).any (fun b => b.isNone) then (.error .blockNotFound, store)
  else
    let vblocks := validFetched store ids
    let originalTokens := mergeOrigTokens vblocks
    if originalTokens < 100 then (.error (.tooSmall originalTokens), store)
    else
      match raceOutcome run with
      | .timedOut => (.error .timeout, store)
      | .failed e => (.error (.backendFailed e), store)
      | .completed msgs =>
        let compressedContent := jsTrim (collectText msgs)
        if compressedContent = "" then (.error .emptyResponse, store)
        else
          let compressedTokens := estimateTokens compressedContent
          if ratioLtMin originalTokens compressedTokens then
            (.error (.ratioTooLow originalTokens compressedTokens), store)
          else
            (.ok { compressedContent := compressedContent,
                   originalTokens := originalTokens,
                   compressedTokens := compressedTokens,
                   tokensSaved := originalTokens - compressedTokens }, store)

/-- Modelled from the spec: the merge persistence (the `useCompression`
hook's merge path and the `blocks.compressAndMerge` mutation) is not
under `src/` (only the sequence diagrams describing it are).  Per §4.6 of
the spec, a rejection is propagated verbatim and touches none of the
source blocks; on acceptance exactly one new block carrying the compacted
content and `mergedFromCount = N` is inserted, and then the N source
blocks are deleted. -/
def compressAndMergeFlow (store : Store) (ids : List Nat) (run : AgentRun)
    (newId : Nat) (targetType : String) : Except ServerErr Nat × Store :=
  match compressAndMergeAction store ids run with
  | (.error e, st) => (.error e, st)
  | (.ok out, st) =>
    let newBlock : BlockDoc :=
      { id := newId, content := out.compressedContent, btype := targetType,
        tokens := some out.compressedTokens, isCompressed := true,
        originalTokens := some out.originalTokens,
        mergedFromCount := some ids.length }
    (.ok newId, ids.foldl (fun s i => s.filter (fun b => b.id != i)) (st ++ [newBlock]))

/-! ## Concrete fixtures used by witnesses and counterexamples -/

/-- Fifty characters (§8 scenario 1 of the spec: 50 chars, 13 tokens). -/
def fiftyX : String := ⟨List.replicate 50 'x'⟩

/-- 600 `a`s: 150 estimated tokens, a single important word, no client
important words beyond... (none: no digits, capitals or acronyms). -/
def contentA600 : String := ⟨List.replicate 600 'a'⟩

/-- 400 `a`s: exactly 100 estimated tokens, no client important words. -/
def contentA400 : String := ⟨List.replicate 400 'a'⟩

/-- 400 `b`s: 100 estimated tokens. -/
def textB400 : String := ⟨List.replicate 400 'b'⟩

/-- 320 `c`s: 80 estimated tokens. -/
def textC320 : String := ⟨List.replicate 320 'c'⟩

/-- 400 `y`s: exactly 100 estimated tokens. -/
def textY400 : String := ⟨List.replicate 400 'y'⟩

/-- A block carrying `contentA600`, never compressed, no cached count. -/
def blockA : BlockDoc :=
  { id := 1, content := contentA600, btype := "note", tokens := none,
    isCompressed := false, originalTokens := none, mergedFromCount := none }

/-- The state of `blockA` after a first successful compression to
`textB400` (100 tokens, provenance 150 recorded). -/
def blockA1 : BlockDoc :=
  { id := 1, content := textB400, btype := "note", tokens := some 100,
    isCompressed := true, originalTokens := some 150, mergedFromCount := none }

/-- The state of `blockA1` after a second successful compression to
`textC320` (80 tokens) — provenance stays at 150. -/
def blockA2 : BlockDoc :=
  { id := 1, content := textC320, btype := "note", tokens := some 80,
    isCompressed := true, originalTokens := some 150, mergedFromCount := none }

/-- A small uncompressed block with a cached token count of 200. -/
def blockU : BlockDoc :=
  { id := 1, content := "alpha beta gamma delta", btype := "note",
    tokens := some 200, isCompressed := false, originalTokens := none,
    mergedFromCount := none }

/-- A second small block with a cached token count of 200. -/
def blockV : BlockDoc :=
  { id := 2, content := "epsilon zeta eta theta", btype := "code",
    tokens := some 200, isCompressed := false, originalTokens := none,
    mergedFromCount := none }

/-- Client block at the ratio boundary: 120 cached tokens (against a
100-token response this is a ratio of exactly 1.2). -/
def clientBlockR : ClientBlock :=
  { id := 5, content := "boundary sample", btype := "text",
    tokens := some 120, isCompressed := false }

/-- Client block whose content has two important words. -/
def clientBlockP : ClientBlock :=
  { id := 7, content := "Paris 1234", btype := "text",
    tokens := some 200, isCompressed := false }

/-- Client block with only 50 cached tokens (too small to compress). -/
def clientBlockS : ClientBlock :=
  { id := 9, content := "tiny but cached", btype := "text",
    tokens := some 50, isCompressed := false }

/-- Client block of 400 `a`s: passes validation, no important words. -/
def clientBlockA : ClientBlock :=
  { id := 11, content := contentA400, btype := "text",
    tokens := none, isCompressed := false }

/-! ## Helper lemmas -/

/-- The integer ratio gate agrees with the exact rational comparison
`originalTokens / compressedTokens < 1.2` whenever the denominator is
positive. -/
theorem ratioLtMin_iff_ratio (o c : Nat) (hc : 0 < c) :
    ratioLtMin o c = true ↔ (o : ℚ) / (c : ℚ) < 6 / 5 := by
  unfold ratioLtMin
  rw [decide_eq_true_eq]
  have hcq : (0 : ℚ) < (c : ℚ) := by exact_mod_cast hc
  rw [div_lt_div_iff₀ hcq (by norm_num : (0 : ℚ) < 5)]
  constructor
  · intro h
    have h' : ((5 * o : ℕ) : ℚ) < ((6 * c : ℕ) : ℚ) := by exact_mod_cast h
    push_cast at h'
    linarith
  · intro h
    have h' : ((5 * o : ℕ) : ℚ) < ((6 * c : ℕ) : ℚ) := by push_cast; linarith
    exact_mod_cast h'

/-- The integer quality gate agrees with `estimateQuality _ _ < 0.6`. -/
theorem client_qualityLtMin_iff (o c : String) :
    Client.qualityLtMin o c = true ↔ Client.estimateQuality o c < 3 / 5 := by
  unfold Client.qualityLtMin Client.estimateQuality
  rcases Nat.eq_zero_or_pos (Client.importantCount o) with h | h
  · rw [if_pos h, if_pos h]
    norm_num
  · have hne : Client.importantCount o ≠ 0 := Nat.pos_iff_ne_zero.mp h
    rw [if_neg hne, if_neg hne, decide_eq_true_eq]
    have ht : (0 : ℚ) < (Client.importantCount o : ℚ) := by exact_mod_cast h
    have hp : Client.preservedCount o c ≤ Client.importantCount o :=
      List.length_filter_le _ _
    have hmin :
        min 1 ((Client.preservedCount o c : ℚ) / (Client.importantCount o : ℚ)) =
          (Client.preservedCount o c : ℚ) / (Client.importantCount o : ℚ) := by
      apply min_eq_right
      rw [div_le_one ht]
      exact_mod_cast hp
    rw [hmin, div_lt_div_iff₀ ht (by norm_num : (0 : ℚ) < 5)]
    constructor
    · intro h'
      have h'' : ((5 * Client.preservedCount o c : ℕ) : ℚ) <
          ((3 * Client.importantCount o : ℕ) : ℚ) := by exact_mod_cast h'
      push_cast at h''
      linarith
    · intro h'
      have h'' : ((5 * Client.preservedCount o c : ℕ) : ℚ) <
          ((3 * Client.importantCount o : ℕ) : ℚ) := by push_cast; linarith
      exact_mod_cast h''

/-- Worker lemma: `dedupFirstGo` produces a duplicate-free list avoiding `seen`. -/
theorem dedupFirstGo_spec (l : List String) : ∀ seen : List String,
    (dedupFirstGo seen l).Nodup ∧ ∀ x ∈ dedupFirstGo seen l, x ∉ seen := by
  induction l with
  | nil => intro seen; simp [dedupFirstGo]
  | cons x xs ih =>
    intro seen
    by_cases hx : seen.contains x = true
    · rw [dedupFirstGo, if_pos hx]
      exact ih seen
    · rw [dedupFirstGo, if_neg hx]
      obtain ⟨hnd, hmem⟩ := ih (x :: seen)
      refine ⟨List.nodup_cons.mpr ⟨fun hc => ?_, hnd⟩, ?_⟩
      · exact (hmem x hc) (List.mem_cons_self x seen)
      · intro y hy
        rcases List.mem_cons.mp hy with rfl | hy'
        · intro hseen
          exact hx (List.elem_iff.mpr hseen)
        · intro hseen
          exact (hmem y hy') (List.mem_cons_of_mem x hseen)

/-- Lemma: `dedupFirst` produces a duplicate-free list. -/
theorem dedupFirst_nodup (l : List String) : (dedupFirst l).Nodup :=
  (dedupFirstGo_spec l []).1

/-- A list is an initial segment of itself followed by anything. -/
theorem leadsList_self_append (x b : List Char) : leadsList x (x ++ b) = true := by
  induction x with
  | nil => rfl
  | cons c cs ih => simp [leadsList, ih]

/-- Containment is stable under prepending. -/
theorem inclList_append_left (x : List Char) (a : List Char) (t : List Char)
    (h : inclList x t = true) : inclList x (a ++ t) = true := by
  induction a with
  | nil => simpa using h
  | cons c cs ih => simp [inclList, ih]

/-- A list occurs in itself followed by anything. -/
theorem inclList_self_append (x b : List Char) : inclList x (x ++ b) = true := by
  cases x with
  | nil =>
    cases b with
    | nil => rfl
    | cons c cs => simp [inclList, leadsList]
  | cons c cs =>
    have h : leadsList (c :: cs) ((c :: cs) ++ b) = true :=
      leadsList_self_append (c :: cs) b
    simp only [List.cons_append] at h
    simp [inclList, h]

/-- A string occurs in any concatenation that embeds it. -/
theorem strIncludes_append_mid (pre x post : String) :
    strIncludes x (pre ++ x ++ post) = true := by
  unfold strIncludes
  rw [String.data_append, String.data_append, List.append_assoc]
  exact inclList_append_left _ _ _ (inclList_self_append _ _)

/-- The estimator is the rational ceiling of a quarter of the length. -/
theorem estimateTokens_eq_ceil_aux (n : Nat) :
    (((n + 3) / 4 : ℕ) : ℤ) = ⌈(n : ℚ) / 4⌉ := by
  have h1 : n ≤ 4 * ((n + 3) / 4) := by omega
  have h2 : 4 * ((n + 3) / 4) ≤ n + 3 := by omega
  have h1q : (n : ℚ) ≤ 4 * (((n + 3) / 4 : ℕ) : ℚ) := by exact_mod_cast h1
  have h2q : 4 * (((n + 3) / 4 : ℕ) : ℚ) ≤ (n : ℚ) + 3 := by exact_mod_cast h2
  symm
  rw [Int.ceil_eq_iff]
  refine ⟨?_, ?_⟩
  · rw [lt_div_iff₀ (by norm_num : (0 : ℚ) < 4), Int.cast_natCast]
    linarith
  · rw [div_le_iff₀ (by norm_num : (0 : ℚ) < 4), Int.cast_natCast]
    linarith

/-- Lookup `find?` commutes with a map that does not change the tested field. -/
theorem find?_map_congr {α β : Type} (f : α → β) (p : β → Bool) (q : α → Bool)
    (hpq : ∀ a, p (f a) = q a) (l : List α) :
    List.find? p (l.map f) = (List.find? q l).map f := by
  induction l with
  | nil => rfl
  | cons a as ih =>
    by_cases hq : q a = true
    · rw [List.map_cons, List.find?_cons_of_pos _ (by rw [hpq a]; exact hq),
          List.find?_cons_of_pos _ hq]
      rfl
    · rw [List.map_cons, List.find?_cons_of_neg _ (by rw [hpq a]; simpa using hq),
          List.find?_cons_of_neg _ (by simpa using hq), ih]

/-- Lookup after the patch of `blocks.compress`. -/
theorem getBlock_compressMutation (store : Store) (i j : Nat) (c : String)
    (o k : Nat) :
    getBlock (compressMutation store j c o k) i =
      (getBlock store i).map (fun b =>
        if b.id = j then
          { b with content := c, tokens := some k, isCompressed := true,
                   originalTokens := some (b.originalTokens.getD o) }
        else b) := by
  unfold getBlock compressMutation
  apply find?_map_congr
  intro b
  by_cases hb : b.id = j <;> simp [hb]

/-- The merge action never touches the store. -/
theorem compressAndMergeAction_snd (store : Store) (ids : List Nat)
    (run : AgentRun) : (compressAndMergeAction store ids run).2 = store := by
  unfold compressAndMergeAction
  dsimp only
  repeat' split
  all_goals rfl

/-- Success of the single-block action forces the success path: the block
was found, the race completed, and the store was patched through
`blocks.compress` with the trimmed response. -/
theorem compressAction_ok_shape {store : Store} {i : Nat} {run : AgentRun}
    {out : SingleOut} {st : Store}
    (h : compressWithClaudeCodeAction store i run = (.ok out, st)) :
    ∃ blk msgs, getBlock store i = some blk ∧ raceOutcome run = .completed msgs ∧
      out.originalTokens = jsOr blk.tokens (estimateTokens blk.content) ∧
      st = compressMutation store i (jsTrim (collectText msgs))
             (jsOr blk.tokens (estimateTokens blk.content))
             (estimateTokens (jsTrim (collectText msgs))) := by
  unfold compressWithClaudeCodeAction at h
  cases hg : getBlock store i with
  | none => rw [hg] at h; simp at h
  | some blk =>
    rw [hg] at h
    simp only at h
    split at h
    · simp at h
    · split at h
      · simp at h
      · cases hr : raceOutcome run with
        | timedOut => rw [hr] at h; simp at h
        | failed e => rw [hr] at h; simp at h
        | completed msgs =>
          rw [hr] at h
          simp only at h
          split at h
          · simp at h
          · split at h
            · simp at h
            · simp only [Prod.mk.injEq, Except.ok.injEq] at h
              obtain ⟨hout, hst⟩ := h
              exact ⟨blk, msgs, rfl, rfl, by rw [← hout], hst.symm⟩

/-- If `getBlock` finds a block, its id is the requested one. -/
theorem getBlock_some_id {store : Store} {i : Nat} {b : BlockDoc}
    (h : getBlock store i = some b) : b.id = i := by
  have := List.find?_some h
  simpa using this

/-! ## Claim theorems -/

/-- C9: the approximate token estimator computes `ceil(length / 4)` (so a
50-character string estimates to 13 tokens), and is monotone under
repetition: `estimate(A ++ A) ≥ estimate(A)`. -/
theorem estimator_ceil_and_monotone :
    (∀ s : String, (estimateTokens s : ℤ) = ⌈(s.length : ℚ) / 4⌉) ∧
    (∀ s : String, estimateTokens s ≤ estimateTokens (s ++ s)) ∧
    estimateTokens fiftyX = 13 := by
  refine ⟨fun s => estimateTokens_eq_ceil_aux s.length, fun s => ?_, by decide⟩
  unfold estimateTokens
  rw [String.length_append]
  exact Nat.div_le_div_right (by omega)

/-- C8, counterexample: the client-side prompt built for 1500 original
tokens and target ratio 2 does not contain the computed target
`ceil(1500 / 2) = 750` anywhere — the template renders the division
expression `1500/2` textually instead. -/
theorem client_prompt_lacks_computed_target :
    toString ((1500 + 1) / 2) = "750" ∧
    strIncludes (toString ((1500 + 1) / 2)) (formatPrompt "hello" 1500 2 "text") = false := by
  constructor
  · decide
  · decide

/-- C8, amended: the server-side prompt builder embeds the computed
numeric target `ceil(originalTokens / 2)` in the prompt, for every
content, token count and content type. -/
theorem server_prompt_contains_computed_target (content : String)
    (originalTokens : Nat) (contentType : String) :
    strIncludes (toString ((originalTokens + 1) / 2))
      (buildCompressionPrompt content originalTokens contentType) = true := by
  unfold buildCompressionPrompt
  exact strIncludes_append_mid _ _ _

/-- C7, counterexample: the client-side extractor is not deduplicated —
on the text `"5 5"` it returns the number `5` twice. -/
theorem client_extractor_not_dedup :
    Client.extractImportantWords "5 5" = ["5", "5"] ∧
    ¬ (Client.extractImportantWords "5 5").Nodup := by
  constructor
  · decide
  · decide

/-- C7, amended: the server-side extractor is deduplicated, capped at 50
entries, and keeps only non-stop-words longer than 3 characters (of the
lowercased alphanumeric words); the collection of numerals, the first 10
capitalized words and the first 5 acronyms — without deduplication, cap,
or stop-word removal — is the client-side extractor instead. -/
theorem server_extractor_dedup_capped (text : String) :
    (Server.extractImportantWords text).Nodup ∧
    (Server.extractImportantWords text).length ≤ 50 ∧
    ∀ w ∈ Server.extractImportantWords text,
      stopWords.contains w = false ∧ 3 < w.length := by
  refine ⟨?_, ?_, ?_⟩
  · unfold Server.extractImportantWords
    exact List.Nodup.sublist (List.take_sublist _ _)
      (List.Nodup.filter _ (dedupFirst_nodup _))
  · exact List.length_take_le _ _
  · intro w hw
    have hw' := List.take_subset _ _ hw
    have hp := List.of_mem_filter hw'
    simp only [Bool.and_eq_true, Bool.not_eq_true', decide_eq_true_eq] at hp
    exact hp

/-- C7, witness for the amended theorem at a concrete text. -/
theorem server_extractor_dedup_capped_witness :
    ("decision" ∈ Server.extractImportantWords "Decision 9000 decision") ∧
    stopWords.contains "decision" = false ∧ 3 < "decision".length :=
  ⟨by decide,
   (server_extractor_dedup_capped "Decision 9000 decision").2.2 "decision" (by decide)⟩

/-- C5: a block whose effective token count is below 100, or whose
content is empty or whitespace-only, is rejected by validation — the
result is unsuccessful with a validation error, and no backend transport
is ever invoked. -/
theorem undersized_or_blank_never_reaches_backend (blk : ClientBlock)
    (strat : CompressionStrategy) (prov : Provider)
    (backend : String → Except String String)
    (h : jsOr blk.tokens (estimateTokens blk.content) < 100 ∨ jsTrim blk.content = "") :
    (compressBlockT blk strat prov backend).1.success = false ∧
    isValidationErrO (compressBlockT blk strat prov backend).1.error = true ∧
    (compressBlockT blk strat prov backend).2 = 0 := by
  have hval : validateBlock blk =
      (false, some (.validationTooSmall (jsOr blk.tokens (estimateTokens blk.content)))) ∨
      validateBlock blk = (false, some .validationEmpty) := by
    unfold validateBlock
    rcases h with h | h
    · left; rw [if_pos h]
    · by_cases h2 : jsOr blk.tokens (estimateTokens blk.content) < 100
      · left; rw [if_pos h2]
      · right; rw [if_neg h2, if_pos h]
  rcases hval with hv | hv <;>
    · unfold compressBlockT
      rw [hv]
      exact ⟨rfl, rfl, rfl⟩

/-- C5, witness: a cached 50-token block is rejected without any call. -/
theorem undersized_witness :
    (jsOr clientBlockS.tokens (estimateTokens clientBlockS.content) < 100 ∨
      jsTrim clientBlockS.content = "") ∧
    (compressBlockT clientBlockS .semantic .ollama (fun _ => .ok "zz")).1.success = false ∧
    isValidationErrO (compressBlockT clientBlockS .semantic .ollama (fun _ => .ok "zz")).1.error = true ∧
    (compressBlockT clientBlockS .semantic .ollama (fun _ => .ok "zz")).2 = 0 :=
  ⟨Or.inl (by decide),
   undersized_or_blank_never_reaches_backend clientBlockS .semantic .ollama
     (fun _ => .ok "zz") (Or.inl (by decide))⟩

/-- Reduction of `compressBlock` once validation passes and the semantic
strategy obtains a response: only the two scoring gates remain. -/
theorem compressBlockT_reach_scoring (blk : ClientBlock) (prov : Provider)
    (raw : String) (backend : String → Except String String)
    (hval : (validateBlock blk).1 = true)
    (hprov : prov ≠ Provider.claudeCode)
    (hback : backend (formatPrompt blk.content (estimateTokens blk.content) 2 blk.btype) = .ok raw) :
    compressBlockT blk .semantic prov backend =
      (if ratioLtMin (jsOr blk.tokens (estimateTokens blk.content))
          (estimateTokens (jsTrim raw)) then
        ({ success := false, blockId := none,
           error := some (.ratioTooLow (jsOr blk.tokens (estimateTokens blk.content))
             (estimateTokens (jsTrim raw))),
           originalTokens := jsOr blk.tokens (estimateTokens blk.content),
           compressedTokens := estimateTokens (jsTrim raw),
           tokensSaved := 0, compressedContent := none, strategy := .semantic }, 1)
      else if Client.qualityLtMin blk.content (jsTrim raw) then
        ({ success := false, blockId := none,
           error := some (.qualityTooLow (Client.estimateQuality blk.content (jsTrim raw))),
           originalTokens := jsOr blk.tokens (estimateTokens blk.content),
           compressedTokens := estimateTokens (jsTrim raw),
           tokensSaved := 0, compressedContent := none, strategy := .semantic }, 1)
      else
        ({ success := true, blockId := some blk.id, error := none,
           originalTokens := jsOr blk.tokens (estimateTokens blk.content),
           compressedTokens := estimateTokens (jsTrim raw),
           tokensSaved := jsOr blk.tokens (estimateTokens blk.content) -
             estimateTokens (jsTrim raw),
           compressedContent := some (jsTrim raw), strategy := .semantic }, 1)) := by
  have hsem : compressContentT blk.content .semantic blk.btype prov backend =
      (.ok (jsTrim raw), 1) := by
    unfold compressContentT compressSemanticT
    cases prov with
    | ollama => dsimp only; rw [hback]; rfl
    | openrouter => dsimp only; rw [hback]; rfl
    | claudeCode => exact absurd rfl hprov
  unfold compressBlockT
  simp only [hval, Bool.not_true, Bool.false_eq_true, if_false, hsem]

/-- C3: once an attempt reaches ratio scoring (validation passed and the
backend answered) with a nonzero compressed token count, it is rejected
by the ratio gate exactly when `originalTokens / compressedTokens` is
strictly below `6/5 = 1.2`; in particular a ratio of exactly 1.2 is not
rejected. -/
theorem ratio_gate_rejects_iff_below_six_fifths (blk : ClientBlock)
    (prov : Provider) (raw : String) (backend : String → Except String String)
    (hval : (validateBlock blk).1 = true)
    (hprov : prov ≠ Provider.claudeCode)
    (hback : backend (formatPrompt blk.content (estimateTokens blk.content) 2 blk.btype) = .ok raw)
    (hcomp : 0 < estimateTokens (jsTrim raw)) :
    ((compressBlockT blk .semantic prov backend).1.error =
        some (CompErr.ratioTooLow (jsOr blk.tokens (estimateTokens blk.content))
          (estimateTokens (jsTrim raw))) ↔
      (jsOr blk.tokens (estimateTokens blk.content) : ℚ) /
        (estimateTokens (jsTrim raw) : ℚ) < 6 / 5) := by
  rw [compressBlockT_reach_scoring blk prov raw backend hval hprov hback]
  by_cases hr : ratioLtMin (jsOr blk.tokens (estimateTokens blk.content))
      (estimateTokens (jsTrim raw)) = true
  · rw [if_pos hr]
    constructor
    · intro _
      exact (ratioLtMin_iff_ratio _ _ hcomp).mp hr
    · intro _
      rfl
  · rw [if_neg hr]
    constructor
    · intro hcontra
      by_cases hq : Client.qualityLtMin blk.content (jsTrim raw) = true
      · rw [if_pos hq] at hcontra
        exact absurd hcontra (by simp)
      · rw [if_neg hq] at hcontra
        exact absurd hcontra (by simp)
    · intro hratio
      exact absurd ((ratioLtMin_iff_ratio _ _ hcomp).mpr hratio) hr

/-- C3, witness at the exact ratio boundary: 120 cached original tokens
against a 400-character (100-token) response is a ratio of exactly 1.2,
and the gate does not reject it. -/
theorem ratio_gate_boundary_witness :
    ((validateBlock clientBlockR).1 = true ∧ 0 < estimateTokens (jsTrim textY400)) ∧
    ((compressBlockT clientBlockR .semantic .ollama (fun _ => .ok textY400)).1.error =
        some (CompErr.ratioTooLow (jsOr clientBlockR.tokens (estimateTokens clientBlockR.content))
          (estimateTokens (jsTrim textY400))) ↔
      (jsOr clientBlockR.tokens (estimateTokens clientBlockR.content) : ℚ) /
        (estimateTokens (jsTrim textY400) : ℚ) < 6 / 5) :=
  ⟨⟨by decide, by decide⟩,
   ratio_gate_rejects_iff_below_six_fifths clientBlockR .ollama textY400
     (fun _ => .ok textY400) (by decide) (by decide) rfl (by decide)⟩

/-- C10: the ratio division is unguarded against a zero compressed token
count: when validation passes and the backend returns an empty or
whitespace-only string, the compressed token count is 0, the ratio gate
does not reject, and if the original content has no extractable important
words the result is returned successful with empty compressed content. -/
theorem empty_response_passes_ratio_gate (blk : ClientBlock)
    (prov : Provider) (raw : String) (backend : String → Except String String)
    (hval : (validateBlock blk).1 = true)
    (hprov : prov ≠ Provider.claudeCode)
    (hback : backend (formatPrompt blk.content (estimateTokens blk.content) 2 blk.btype) = .ok raw)
    (hws : jsTrim raw = "") :
    (compressBlockT blk .semantic prov backend).1.compressedTokens = 0 ∧
    (∀ o c, (compressBlockT blk .semantic prov backend).1.error ≠
      some (CompErr.ratioTooLow o c)) ∧
    (Client.extractImportantWords blk.content = [] →
      (compressBlockT blk .semantic prov backend).1.success = true ∧
      (compressBlockT blk .semantic prov backend).1.compressedContent = some "") := by
  rw [compressBlockT_reach_scoring blk prov raw backend hval hprov hback, hws]
  have hz : estimateTokens "" = 0 := rfl
  rw [hz]
  have hr : ratioLtMin (jsOr blk.tokens (estimateTokens blk.content)) 0 = false := by
    unfold ratioLtMin
    simp
  rw [if_neg (by rw [hr]; exact Bool.false_ne_true)]
  by_cases hq : Client.qualityLtMin blk.content "" = true
  · rw [if_pos hq]
    refine ⟨rfl, by intro o c; simp, ?_⟩
    intro hempty
    exfalso
    have : Client.importantCount blk.content = 0 := by
      unfold Client.importantCount
      rw [hempty]
      rfl
    unfold Client.qualityLtMin at hq
    rw [if_pos this] at hq
    exact Bool.false_ne_true hq
  · rw [if_neg hq]
    exact ⟨rfl, by intro o c; simp, fun _ => ⟨rfl, rfl⟩⟩

/-- C10, witness: a 400-character all-lowercase block (100 estimated
tokens, no important words) against a whitespace-only response is
reported as a successful compression to zero tokens. -/
theorem empty_response_witness :
    ((validateBlock clientBlockA).1 = true ∧ jsTrim "   " = "" ∧
      Client.extractImportantWords clientBlockA.content = []) ∧
    (compressBlockT clientBlockA .semantic .ollama (fun _ => .ok "   ")).1.compressedTokens = 0 ∧
    ((compressBlockT clientBlockA .semantic .ollama (fun _ => .ok "   ")).1.success = true ∧
      (compressBlockT clientBlockA .semantic .ollama (fun _ => .ok "   ")).1.compressedContent = some "") :=
  ⟨⟨by decide, by decide, by decide⟩,
   (empty_response_passes_ratio_gate clientBlockA .ollama "   "
     (fun _ => .ok "   ") (by decide) (by decide) rfl (by decide)).1,
   (empty_response_passes_ratio_gate clientBlockA .ollama "   "
     (fun _ => .ok "   ") (by decide) (by decide) rfl (by decide)).2.2 (by decide)⟩

/-- C4, counterexample: in the server-side claude-code action a quality
score below 0.6 does not reject the attempt — compressing a block of 600
`a`s into 400 `b`s preserves none of the important words (quality 0),
yet the action succeeds and patches the block. -/
theorem server_low_quality_still_succeeds :
    Server.estimateQuality contentA600 textB400 < 3 / 5 ∧
    (compressWithClaudeCodeAction [blockA] 1 (.yields [.assistant [textB400]] 0)).1 =
      .ok { blockId := 1, originalTokens := 150, compressedTokens := 100,
            tokensSaved := 50 } ∧
    getBlock (compressWithClaudeCodeAction [blockA] 1 (.yields [.assistant [textB400]] 0)).2 1 =
      some { id := 1, content := textB400, btype := "note", tokens := some 100,
             isCompressed := true, originalTokens := some 150,
             mergedFromCount := none } := by
  refine ⟨?_, by decide, by decide⟩
  have himp : Server.importantCount contentA600 = 1 := by decide
  have hpres : Server.preservedCount contentA600 textB400 = 0 := by decide
  unfold Server.estimateQuality
  rw [himp, hpres]
  norm_num

/-- C4, amended: in the client-side service an attempt that reaches
quality scoring is rejected exactly when the quality score is strictly
below 0.6 (the server-side claude-code action instead only logs a warning
and proceeds, per the counterexample). -/
theorem client_quality_gate_rejects_iff (blk : ClientBlock) (prov : Provider)
    (raw : String) (backend : String → Except String String)
    (hval : (validateBlock blk).1 = true)
    (hprov : prov ≠ Provider.claudeCode)
    (hback : backend (formatPrompt blk.content (estimateTokens blk.content) 2 blk.btype) = .ok raw)
    (hratio : ratioLtMin (jsOr blk.tokens (estimateTokens blk.content))
      (estimateTokens (jsTrim raw)) = false) :
    ((compressBlockT blk .semantic prov backend).1.error =
        some (CompErr.qualityTooLow (Client.estimateQuality blk.content (jsTrim raw))) ↔
      Client.estimateQuality blk.content (jsTrim raw) < 3 / 5) ∧
    (Client.estimateQuality blk.content (jsTrim raw) < 3 / 5 →
      (compressBlockT blk .semantic prov backend).1.success = false) := by
  rw [compressBlockT_reach_scoring blk prov raw backend hval hprov hback]
  rw [if_neg (by rw [hratio]; exact Bool.false_ne_true)]
  by_cases hq : Client.qualityLtMin blk.content (jsTrim raw) = true
  · rw [if_pos hq]
    have hlt := (client_qualityLtMin_iff blk.content (jsTrim raw)).mp hq
    exact ⟨⟨fun _ => hlt, fun _ => rfl⟩, fun _ => rfl⟩
  · rw [if_neg hq]
    constructor
    · constructor
      · intro hcontra
        exact absurd hcontra (by simp)
      · intro hlt
        exact absurd ((client_qualityLtMin_iff blk.content (jsTrim raw)).mpr hlt) hq
    · intro hlt
      exact absurd ((client_qualityLtMin_iff blk.content (jsTrim raw)).mpr hlt) hq

/-- C4, witness for the amended theorem: a block whose content holds the
important words `Paris` and `1234`, compressed to `"hello"`, is rejected
with a quality error. -/
theorem client_quality_gate_witness :
    ((validateBlock clientBlockP).1 = true ∧
      ratioLtMin (jsOr clientBlockP.tokens (estimateTokens clientBlockP.content))
        (estimateTokens (jsTrim "hello")) = false) ∧
    ((compressBlockT clientBlockP .semantic .ollama (fun _ => .ok "hello")).1.error =
        some (CompErr.qualityTooLow (Client.estimateQuality clientBlockP.content (jsTrim "hello"))) ↔
      Client.estimateQuality clientBlockP.content (jsTrim "hello") < 3 / 5) :=
  ⟨⟨by decide, by decide⟩,
   (client_quality_gate_rejects_iff clientBlockP .ollama "hello"
     (fun _ => .ok "hello") (by decide) (by decide) rfl (by decide)).1⟩

/-- C2: when the claude-code backend has not settled strictly before the
300000 ms deadline, the race resolves to the timer: both the single-block
action and the merge flow fail with the timeout error and leave the store
exactly as it was — no block is patched, inserted or deleted. -/
theorem agent_timeout_fails_and_preserves_store (store : Store) (i : Nat)
    (blk : BlockDoc) (run : AgentRun) (ids : List Nat) (newId : Nat)
    (ttype : String)
    (hfound : getBlock store i = some blk)
    (htok : ¬ jsOr blk.tokens (estimateTokens blk.content) < 100)
    (hcontent : jsTrim blk.content ≠ "")
    (hlate : timeoutMs ≤ run.elapsed)
    (hids : (fetchBlocks store ids).any (fun b => b.isNone) = false)
    (hsum : ¬ mergeOrigTokens (validFetched store ids) < 100) :
    compressWithClaudeCodeAction store i run = (.error .timeout, store) ∧
    compressAndMergeFlow store ids run newId ttype = (.error .timeout, store) := by
  have hrace : raceOutcome run = .timedOut := by
    cases run with
    | yields msgs t =>
      have ht : ¬ t < timeoutMs := Nat.not_lt.mpr hlate
      simp [raceOutcome, ht]
    | crashes m t =>
      have ht : ¬ t < timeoutMs := Nat.not_lt.mpr hlate
      simp [raceOutcome, ht]
  constructor
  · simp only [compressWithClaudeCodeAction, hfound, htok, hcontent, hrace,
      if_false]
  · have hact : compressAndMergeAction store ids run = (.error .timeout, store) := by
      simp only [compressAndMergeAction, hids, hrace, Bool.false_eq_true, if_false]
      simp [hsum]
    unfold compressAndMergeFlow
    rw [hact]

/-- C2, witness: a backend settling exactly at the 300000 ms deadline
loses the race; neither the single-block action nor a two-block merge
touches the store. -/
theorem agent_timeout_witness :
    (getBlock [blockU, blockV] 1 = some blockU ∧
      timeoutMs ≤ (AgentRun.yields [] 300000).elapsed) ∧
    compressWithClaudeCodeAction [blockU, blockV] 1 (.yields [] 300000) =
      (.error .timeout, [blockU, blockV]) ∧
    compressAndMergeFlow [blockU, blockV] [1, 2] (.yields [] 300000) 99 "NOTE" =
      (.error .timeout, [blockU, blockV]) :=
  ⟨⟨by decide, by decide⟩,
   agent_timeout_fails_and_preserves_store [blockU, blockV] 1 blockU
     (.yields [] 300000) [1, 2] 99 "NOTE" (by decide) (by decide) (by decide)
     (by decide) (by decide) (by decide)⟩

/-- C1: any failing merge invocation — whatever validation step or
backend outcome produced the error — leaves the store exactly as it was:
a `listByFilter` over the source ids still returns the original blocks,
unmodified. -/
theorem merge_failure_leaves_sources_untouched (store : Store)
    (ids : List Nat) (run : AgentRun) (newId : Nat) (ttype : String)
    (e : ServerErr) (st : Store)
    (h : compressAndMergeFlow store ids run newId ttype = (.error e, st)) :
    st = store ∧
    listByFilter st (fun b => ids.contains b.id) =
      listByFilter store (fun b => ids.contains b.id) := by
  have hsnd := compressAndMergeAction_snd store ids run
  unfold compressAndMergeFlow at h
  rcases hact : compressAndMergeAction store ids run with ⟨r, st'⟩
  rw [hact] at h hsnd
  have hsnd' : st' = store := hsnd
  cases r with
  | error e' =>
    dsimp only at h
    simp only [Prod.mk.injEq] at h
    rw [← h.2, hsnd']
    exact ⟨rfl, rfl⟩
  | ok out =>
    dsimp only at h
    simp only [Prod.mk.injEq] at h
    exact absurd h.1 (by simp)

/-- C1, witness: a merge whose backend crashes produces a backend error
and the two source blocks are exactly the original ones. -/
theorem merge_failure_witness :
    compressAndMergeFlow [blockU, blockV] [1, 2] (.crashes "boom" 0) 99 "NOTE" =
      (.error (.backendFailed "boom"), [blockU, blockV]) ∧
    listByFilter [blockU, blockV] (fun b => [1, 2].contains b.id) =
      listByFilter [blockU, blockV] (fun b => [1, 2].contains b.id) :=
  ⟨by decide,
   (merge_failure_leaves_sources_untouched [blockU, blockV] [1, 2]
     (.crashes "boom" 0) 99 "NOTE" (.backendFailed "boom") [blockU, blockV]
     (by decide)).2⟩

/-- C6: across two successful compressions of the same block, the
`originalTokens` provenance set by the first successful compression is
preserved by the second — re-compression never overwrites it. -/
theorem recompression_preserves_originalTokenCount (store : Store) (i : Nat)
    (run1 run2 : AgentRun) (out1 out2 : SingleOut) (st1 st2 : Store)
    (h1 : compressWithClaudeCodeAction store i run1 = (.ok out1, st1))
    (h2 : compressWithClaudeCodeAction st1 i run2 = (.ok out2, st2)) :
    ∃ b1 b2, getBlock st1 i = some b1 ∧ getBlock st2 i = some b2 ∧
      b1.originalTokens.isSome = true ∧ b2.originalTokens = b1.originalTokens := by
  obtain ⟨blk, msgs, hg, -, -, hst1⟩ := compressAction_ok_shape h1
  obtain ⟨blk2, msgs2, hg2, -, -, hst2⟩ := compressAction_ok_shape h2
  have hid : blk.id = i := getBlock_some_id hg
  have hid2 : blk2.id = i := getBlock_some_id hg2
  have hb1 : getBlock st1 i = some
      { blk with content := jsTrim (collectText msgs),
                 tokens := some (estimateTokens (jsTrim (collectText msgs))),
                 isCompressed := true,
                 originalTokens := some (blk.originalTokens.getD
                   (jsOr blk.tokens (estimateTokens blk.content))) } := by
    rw [hst1, getBlock_compressMutation, hg]
    simp [hid]
  have hb2 : getBlock st2 i = some
      { blk2 with content := jsTrim (collectText msgs2),
                  tokens := some (estimateTokens (jsTrim (collectText msgs2))),
                  isCompressed := true,
                  originalTokens := some (blk2.originalTokens.getD
                    (jsOr blk2.tokens (estimateTokens blk2.content))) } := by
    rw [hst2, getBlock_compressMutation, hg2]
    simp [hid2]
  have hblk2 : blk2 =
      { blk with content := jsTrim (collectText msgs),
                 tokens := some (estimateTokens (jsTrim (collectText msgs))),
                 isCompressed := true,
                 originalTokens := some (blk.originalTokens.getD
                   (jsOr blk.tokens (estimateTokens blk.content))) } := by
    rw [hg2] at hb1
    exact Option.some.inj hb1
  have horig2 : blk2.originalTokens = some (blk.originalTokens.getD
      (jsOr blk.tokens (estimateTokens blk.content))) := by rw [hblk2]
  refine ⟨_, _, hb1, hb2, rfl, ?_⟩
  simp only [horig2, Option.getD_some]

/-- C6, witness: compressing `blockA` (150 estimated tokens) twice in a
row leaves `originalTokens = 150`, the value set by the first run. -/
theorem recompression_witness :
    ∃ b1 b2, getBlock [blockA1] 1 = some b1 ∧ getBlock [blockA2] 1 = some b2 ∧
      b1.originalTokens.isSome = true ∧ b2.originalTokens = b1.originalTokens :=
  recompression_preserves_originalTokenCount [blockA] 1
    (.yields [.assistant [textB400]] 0) (.yields [.assistant [textC320]] 0)
    { blockId := 1, originalTokens := 150, compressedTokens := 100, tokensSaved := 50 }
    { blockId := 1, originalTokens := 100, compressedTokens := 80, tokensSaved := 20 }
    [blockA1] [blockA2] (by decide) (by decide)
